import Mathlib

/-! Verification of the dual-mode k-d tree renderer of src/src/display.rs:
a nested-text tree dump and a TikZ diagram generator. Rust panics (Option
unwrap on None, the unreachable macro, out-of-bounds slice indexing) are
modelled as Except errors. The numeric coordinate parameter A of the Rust
code is modelled as the rationals; its Display instance is modelled as exact
decimal notation. -/

namespace KdTreeRs

/-- The distinct panic sources appearing in display.rs: Option unwrap on a
None value, the unreachable macro, and slice indexing out of bounds. -/
inductive Panic where
  | unwrapNone
  | unreachableReached
  | indexOutOfBounds
deriving DecidableEq

/-- Modelled from the spec: the k-d tree node type of the surrounding crate
(its definition is not under src/; display.rs only reads it). It carries
exactly the per-node data display.rs consumes: the subtree point count
(size), the dimensionality, the optional split metadata, the global bounds,
the optional point collection and the two optional children. -/
inductive KdTree : Type where
  | node (size dimensions : Nat) (split_value : Option ℚ) (split_dimension : Option Nat)
      (min_bounds max_bounds : List ℚ) (points : Option (List (List ℚ)))
      (left right : Option KdTree) : KdTree

/-- The size field (number of stored points in the subtree). -/
def KdTree.size : KdTree → Nat
  | .node s _ _ _ _ _ _ _ _ => s

/-- The dimensionality field. -/
def KdTree.dimensions : KdTree → Nat
  | .node _ d _ _ _ _ _ _ _ => d

/-- The optional split value of an internal node. -/
def KdTree.split_value : KdTree → Option ℚ
  | .node _ _ sv _ _ _ _ _ _ => sv

/-- The optional split axis of an internal node. -/
def KdTree.split_dimension : KdTree → Option Nat
  | .node _ _ _ sd _ _ _ _ _ => sd

/-- The per-axis minimum of the global bounding box. -/
def KdTree.min_bounds : KdTree → List ℚ
  | .node _ _ _ _ mn _ _ _ _ => mn

/-- The per-axis maximum of the global bounding box. -/
def KdTree.max_bounds : KdTree → List ℚ
  | .node _ _ _ _ _ mx _ _ _ => mx

/-- The optional point collection of a leaf node. -/
def KdTree.points : KdTree → Option (List (List ℚ))
  | .node _ _ _ _ _ _ pts _ _ => pts

/-- The optional left child. -/
def KdTree.left : KdTree → Option KdTree
  | .node _ _ _ _ _ _ _ l _ => l

/-- The optional right child. -/
def KdTree.right : KdTree → Option KdTree
  | .node _ _ _ _ _ _ _ _ r => r

/-- Number of times p divides n, with explicit fuel (first argument). -/
def multOf (p : Nat) : Nat → Nat → Nat
  | 0, _ => 0
  | fuel + 1, n => if 2 ≤ p ∧ n ≠ 0 ∧ n % p = 0 then multOf p fuel (n / p) + 1 else 0

/-- Left-pad a string with zeros up to length k. -/
def padZeros (s : String) (k : Nat) : String :=
  String.join (List.replicate (k - s.length) "0") ++ s

/-- Decimal rendering of the magnitude n / d (n, d natural, d nonzero):
when d divides a power of ten the exact terminating decimal expansion
without trailing zeros, mirroring how Rust Display prints the float values
exercised by the tests of the spec; a fraction otherwise. -/
def dispQmag (n d : Nat) : String :=
  let k := max (multOf 2 d d) (multOf 5 d d)
  if d ∣ 10 ^ k then
    let m := n * 10 ^ k / d
    if k = 0 then Nat.repr m
    else Nat.repr (m / 10 ^ k) ++ "." ++ padZeros (Nat.repr (m % 10 ^ k)) k
  else Nat.repr n ++ "/" ++ Nat.repr d

/-- Modelled from the spec: the Display rendering of a coordinate value
(the generic float parameter A is modelled as the rationals, printed in
exact decimal notation, so 1 prints as 1 and -3.5 as -3.5). -/
def dispQ (q : ℚ) : String :=
  (if q.num < 0 then "-" else "") ++ dispQmag q.num.natAbs q.den

/-- Modelled from the spec: the sign-forcing Display rendering of a
coordinate value, as produced by the Rust plus format flag: a leading +
for nonnegative values, the usual leading - otherwise. -/
def dispQSigned (q : ℚ) : String :=
  if q < 0 then dispQ q else "+" ++ dispQ q

/-- The axis label function of display.rs (fn dimension_label). -/
def dimension_label (dim : Nat) : String :=
  match dim with
  | 0 => "x"
  | 1 => "y"
  | 2 => "z"
  | 3 => "w"
  | _ => "x" ++ Nat.repr dim

/-- The four-space unit of indentation of display.rs. -/
def four_spaces : String := "    "

/-- Indentation for a given nesting level: four spaces repeated level times. -/
def indentOf (level : Nat) : String :=
  String.join (List.replicate level four_spaces)

/-- The text-mode branch of KdTree::fmt_recursively of display.rs (the
FormatMode::Text arms; the mode kind is invariant under the recursion, so
the Text arms and the TikZ arms are two independent recursive functions).
The current indentation level replaces the Text mode payload. Option
unwraps of the Rust code are the match arms returning Panic.unwrapNone. -/
def fmt_recursively_text : KdTree → Nat → Except Panic String
  | .node size _ sv sd _ _ _ (some left) (some right), level =>
    if size = 0 then .ok "KdTree \x7b\x7d" else
    match sv, sd with
    | some v, some d =>
      match fmt_recursively_text left (level + 1), fmt_recursively_text right (level + 1) with
      | .ok l, .ok r =>
        .ok (let body :=
              "KdTree \x7b\n" ++
              indentOf level ++ four_spaces ++ "split_value: " ++ dispQ v ++ " on " ++
                dimension_label d ++ "\n" ++
              indentOf level ++ four_spaces ++ "left: " ++ l ++
              indentOf level ++ four_spaces ++ "right: " ++ r ++
              indentOf level ++ "\x7d"
             if 1 ≤ level then body ++ "\n" else body)
      | .error e, _ => .error e
      | .ok _, .error e => .error e
    | _, _ => .error .unwrapNone
  | .node size _ _ _ _ _ pts _ _, level =>
    if size = 0 then .ok "KdTree \x7b\x7d" else
    match pts with
    | some ps =>
      .ok (let body :=
            "KdTree \x7b\n" ++
            indentOf level ++ four_spaces ++ "points: [\n" ++
            String.join (ps.map (fun p =>
              indentOf level ++ four_spaces ++ four_spaces ++ "(" ++
                String.intercalate ",\t" (p.map dispQSigned) ++ ")\n")) ++
            indentOf level ++ four_spaces ++ "]\n" ++
            indentOf level ++ "\x7d"
           if 1 ≤ level then body ++ "\n" else body)
    | none => .error .unwrapNone

/-- The body of the non-empty text-mode rendering before the trailing
newline decision: exactly the match block of fmt_recursively of display.rs
(Text arms), without the final write of a line break for level one and up.
Used to state how fmt_recursively_text decomposes. -/
def fmt_text_core : KdTree → Nat → Except Panic String
  | .node _ _ sv sd _ _ _ (some left) (some right), level =>
    match sv, sd with
    | some v, some d =>
      match fmt_recursively_text left (level + 1), fmt_recursively_text right (level + 1) with
      | .ok l, .ok r =>
        .ok ("KdTree \x7b\n" ++
             indentOf level ++ four_spaces ++ "split_value: " ++ dispQ v ++ " on " ++
               dimension_label d ++ "\n" ++
             indentOf level ++ four_spaces ++ "left: " ++ l ++
             indentOf level ++ four_spaces ++ "right: " ++ r ++
             indentOf level ++ "\x7d")
      | .error e, _ => .error e
      | .ok _, .error e => .error e
    | _, _ => .error .unwrapNone
  | .node _ _ _ _ _ _ pts _ _, level =>
    match pts with
    | some ps =>
      .ok ("KdTree \x7b\n" ++
           indentOf level ++ four_spaces ++ "points: [\n" ++
           String.join (ps.map (fun p =>
             indentOf level ++ four_spaces ++ four_spaces ++ "(" ++
               String.intercalate ",\t" (p.map dispQSigned) ++ ")\n")) ++
           indentOf level ++ four_spaces ++ "]\n" ++
           indentOf level ++ "\x7d")
    | none => .error .unwrapNone

/-- The axis-aligned bounding rectangle threaded through the TikZ recursion
(struct Bounds of display.rs). -/
structure Bounds where
  min_x : ℚ
  max_x : ℚ
  min_y : ℚ
  max_y : ℚ
deriving DecidableEq

/-- One TikZ draw command emitted by the diagram recursion of display.rs:
either the split-line write of an internal node (endpoint coordinates plus
the two label strings spliced right after each endpoint), or the filled
point markers of a leaf. -/
inductive TikzInstr where
  | line (x1 y1 x2 y2 : ℚ) (first_pos_node second_pos_node : String)
  | pts (coords : List (ℚ × ℚ))
deriving DecidableEq

/-- The pure geometry of a TikZ draw command, with the label text erased. -/
inductive TikzGeom where
  | segment (x1 y1 x2 y2 : ℚ)
  | markers (coords : List (ℚ × ℚ))
deriving DecidableEq

/-- Forget the label strings of a draw command, keeping what is drawn. -/
def geometry : TikzInstr → TikzGeom
  | .line x1 y1 x2 y2 _ _ => .segment x1 y1 x2 y2
  | .pts coords => .markers coords

/-- The label-pair match of display.rs lines 99-147: given the split value,
the split axis and the flip_node_position flag, the pair of strings spliced
after the first and the second endpoint of the split line. Any axis other
than 0 or 1 hits the unreachable macro. -/
def pos_nodes (split_value : ℚ) : Nat → Bool → Except Panic (String × String)
  | 0, false =>
    .ok ("", " node[anchor=south, align=flush center] \x7b" ++ dispQ split_value ++
         " \\\\[-4pt] \x7b\\tiny L\x7d x \x7b\\tiny R\x7d\x7d")
  | 0, true =>
    .ok (" node[anchor=north, align=flush center] \x7b\x7b\\tiny L\x7d x \x7b\\tiny R\x7d \\\\[-4pt] " ++
         dispQ split_value ++ "\x7d", "")
  | 1, false =>
    .ok ("", " node[anchor=west, align=flush left] \x7b\x7b\\tiny R\x7d \\\\[-2pt] y " ++
         dispQ split_value ++ " \\\\[-2pt] \x7b\\tiny L\x7d\x7d")
  | 1, true =>
    .ok (" node[anchor=east, align=flush right] \x7b\x7b\\tiny R\x7d \\\\[-2pt] " ++
         dispQ split_value ++ " y \\\\[-2pt] \x7b\\tiny L\x7d\x7d", "")
  | _, _ => .error .unreachableReached

/-- The split-line write of display.rs lines 151-155 and 174-178: axis 0
draws the vertical segment at x = split_value over the full y range of the
rectangle, axis 1 the horizontal segment at y = split_value over the full
x range; other axes hit the unreachable macro. -/
def split_line (bounds : Bounds) (split_value : ℚ)
    (first_pos_node second_pos_node : String) : Nat → Except Panic TikzInstr
  | 0 => .ok (.line split_value bounds.min_y split_value bounds.max_y
                first_pos_node second_pos_node)
  | 1 => .ok (.line bounds.min_x split_value bounds.max_x split_value
                first_pos_node second_pos_node)
  | _ => .error .unreachableReached

/-- The child-mode computation of display.rs lines 149-197: the (bounds,
flip_node_position) pair handed to the left child and to the right child.
Axis 0 narrows max_x for the left child and min_x for the right child,
axis 1 narrows max_y and min_y; the left child always receives flag true
and the right child always flag false (the flag of the current node, in
scope in the Rust code, is not consulted). -/
def tikz_child_modes (bounds : Bounds) (_flip_node_position : Bool)
    (split_value : ℚ) : Nat → Except Panic ((Bounds × Bool) × (Bounds × Bool))
  | 0 => .ok (({ bounds with max_x := split_value }, true),
              ({ bounds with min_x := split_value }, false))
  | 1 => .ok (({ bounds with max_y := split_value }, true),
              ({ bounds with min_y := split_value }, false))
  | _ => .error .unreachableReached

/-- The TikZ-mode branch of KdTree::fmt_recursively of display.rs (the
FormatMode::TikZ arms), emitting the list of draw commands in write order:
a size-zero subtree writes nothing; an internal node writes its split line
and then recurses left, then right, with the modes of tikz_child_modes; a
leaf writes one command holding all its point markers, indexing coordinate
0 and 1 of every point. -/
def fmt_recursively_tikz : KdTree → Bounds → Bool → Except Panic (List TikzInstr)
  | .node size _ sv sd _ _ _ (some left) (some right), bounds, flip_node_position =>
    if size = 0 then .ok [] else
    match sv, sd with
    | some split_value, some split_dimension =>
      match pos_nodes split_value split_dimension flip_node_position with
      | .error e => .error e
      | .ok (first_pos_node, second_pos_node) =>
        match split_line bounds split_value first_pos_node second_pos_node split_dimension,
              tikz_child_modes bounds flip_node_position split_value split_dimension with
        | .ok ln, .ok ((lb, lf), (rb, rf)) =>
          match fmt_recursively_tikz left lb lf, fmt_recursively_tikz right rb rf with
          | .ok l, .ok r => .ok (ln :: (l ++ r))
          | .error e, _ => .error e
          | .ok _, .error e => .error e
        | .error e, _ => .error e
        | .ok _, .error e => .error e
    | _, _ => .error .unwrapNone
  | .node size _ _ _ _ _ pts _ _, _, _ =>
    if size = 0 then .ok [] else
    match pts with
    | some ps =>
      match ps.mapM (fun p =>
        match p[0]?, p[1]? with
        | some x, some y => Except.ok (x, y)
        | _, _ => Except.error Panic.indexOutOfBounds) with
      | .ok coords => .ok [.pts coords]
      | .error e => .error e
    | none => .error .unwrapNone

/-- The exact text of one TikZ draw command, as written by display.rs (the
writeln of the split line at lines 151-155 and 174-178, and the leaf point
loop at lines 206-215, with the four-space TikZ indent). -/
def render_tikz_instr : TikzInstr → String
  | .line x1 y1 x2 y2 first_pos_node second_pos_node =>
    "\\draw (" ++ dispQ x1 ++ ", " ++ dispQ y1 ++ ")" ++ first_pos_node ++
    " -- (" ++ dispQ x2 ++ ", " ++ dispQ y2 ++ ")" ++ second_pos_node ++ ";\n"
  | .pts coords =>
    "\\draw[fill=black]" ++
    String.join (coords.map (fun c =>
      "\n" ++ four_spaces ++ "(" ++ dispQ c.1 ++ ", " ++ dispQ c.2 ++
      ") circle[radius=0.05] node[anchor=north, black!60] \x7b\\footnotesize (" ++
      dispQ c.1 ++ ", " ++ dispQ c.2 ++ ")\x7d")) ++
    ";\n"

/-- Concatenation of the rendered draw commands (the body of the diagram). -/
def render_tikz_instrs (instrs : List TikzInstr) : String :=
  String.join (instrs.map render_tikz_instr)

/-- The document preamble written by the Display impl of KdTreeDisplayTikz
(display.rs lines 263-276): static boilerplate around the four global
bounds, which feed the two bounding axis arrows. -/
def tikz_preamble (min_x max_x min_y max_y : ℚ) : String :=
  "\\documentclass[border=2cm]\x7bstandalone\x7d\n" ++
  "\\usepackage\x7bmathtools\x7d\n" ++
  "\\usepackage\x7btikz\x7d\n" ++
  "\\usetikzlibrary\x7barrows.meta\x7d\n" ++
  "\n" ++
  "\\begin\x7bdocument\x7d\n" ++
  "\\begin\x7btikzpicture\x7d\n" ++
  "\n" ++
  "\\draw[->, black!40] (" ++ dispQ min_x ++ ", 0) -- (" ++ dispQ max_x ++ ", 0);\n" ++
  "\\draw[->, black!40] (0, " ++ dispQ min_y ++ ") -- (0, " ++ dispQ max_y ++ ");\n" ++
  "\n"

/-- The static document postamble written by the Display impl of
KdTreeDisplayTikz (display.rs lines 291-296). -/
def tikz_postamble : String :=
  "\n\\end\x7btikzpicture\x7d\n\\end\x7bdocument\x7d\n"

/-- The Display impl of KdTreeDisplayTikz (display.rs lines 259-297): the
two let-else destructurings of the global bounds (unreachable on any shape
other than two entries each), the preamble write, the recursive TikZ body
starting from the global bounds with flag false, and the postamble write. -/
def display_tikz_fmt (t : KdTree) : Except Panic String :=
  match t.min_bounds, t.max_bounds with
  | [min_x, min_y], [max_x, max_y] =>
    match fmt_recursively_tikz t ⟨min_x, max_x, min_y, max_y⟩ false with
    | .ok instrs =>
      .ok (tikz_preamble min_x max_x min_y max_y ++ render_tikz_instrs instrs ++ tikz_postamble)
    | .error e => .error e
  | _, _ => .error .unreachableReached

/-- The single error of the diagram facade, named as the spec names it. -/
inductive DisplayError where
  | UnsupportedDimensionality
deriving DecidableEq

/-- KdTree::display_tikz (display.rs lines 303-312): the dimensionality
gate at the entry point; the Rust panic on a tree with dimensionality other
than two is modelled as the UnsupportedDimensionality error of the spec. -/
def display_tikz (t : KdTree) : Except DisplayError KdTree :=
  if t.dimensions ≠ 2 then .error .UnsupportedDimensionality else .ok t

/-- The whole diagram entry point: the gate of display_tikz followed by the
Display impl of the returned wrapper. An error of the gate produces no
output at all. -/
def render_diagram (t : KdTree) : Except DisplayError (Except Panic String) :=
  match display_tikz t with
  | .error e => .error e
  | .ok w => .ok (display_tikz_fmt w)

/-- The internal-iff-both-children shape invariant of the spec: every node
either has both children present together with split value and split axis,
or (when not both children are present) has its point collection present. -/
def wellFormed : KdTree → Bool
  | .node _ _ sv sd _ _ _ (some left) (some right) =>
    sv.isSome && sd.isSome && wellFormed left && wellFormed right
  | .node _ _ _ _ _ _ pts _ _ => pts.isSome

/-- Overwrite the dimensionality field of every node of a tree, leaving all
other data unchanged. Used to state that the recursive renderers never
consult the dimensionality: only the entry-point gate does. -/
def setDims (d : Nat) : KdTree → KdTree
  | .node s _ sv sd mn mx pts (some l) (some r) =>
    .node s d sv sd mn mx pts (some (setDims d l)) (some (setDims d r))
  | .node s _ sv sd mn mx pts (some l) none =>
    .node s d sv sd mn mx pts (some (setDims d l)) none
  | .node s _ sv sd mn mx pts none (some r) =>
    .node s d sv sd mn mx pts none (some (setDims d r))
  | .node s _ sv sd mn mx pts none none =>
    .node s d sv sd mn mx pts none none

/-- The set of plane points inside an axis-aligned bounding rectangle. -/
def Bounds.rect (b : Bounds) : Set (ℚ × ℚ) :=
  setOf (fun p => b.min_x ≤ p.1 ∧ p.1 ≤ b.max_x ∧ b.min_y ≤ p.2 ∧ p.2 ≤ b.max_y)

/-- Decidable equality of Except values, for evaluating the renderers on
concrete inputs. -/
instance exceptDecEq {ε α : Type} [DecidableEq ε] [DecidableEq α] :
    DecidableEq (Except ε α) := fun a b =>
  match a, b with
  | .ok a, .ok b =>
    if h : a = b then .isTrue (by rw [h]) else .isFalse (fun hh => by cases hh; exact h rfl)
  | .error a, .error b =>
    if h : a = b then .isTrue (by rw [h]) else .isFalse (fun hh => by cases hh; exact h rfl)
  | .ok _, .error _ => .isFalse (fun hh => by cases hh)
  | .error _, .ok _ => .isFalse (fun hh => by cases hh)

/-- C8: in the text renderer, the split line of an internal node shows the
split value labelled through dimension_label, which maps axis 0 to x, 1 to
y, 2 to z, 3 to w, and every axis index of at least 4 to x immediately
followed by the decimal index. -/
theorem text_split_axis_label :
    (∀ s dm mn mx pts left right v d level lo ro,
      s ≠ 0 →
      fmt_recursively_text left (level + 1) = .ok lo →
      fmt_recursively_text right (level + 1) = .ok ro →
      fmt_recursively_text
        (.node s dm (some v) (some d) mn mx pts (some left) (some right)) level =
        .ok (let body :=
              "KdTree \x7b\n" ++
              indentOf level ++ four_spaces ++ "split_value: " ++ dispQ v ++ " on " ++
                dimension_label d ++ "\n" ++
              indentOf level ++ four_spaces ++ "left: " ++ lo ++
              indentOf level ++ four_spaces ++ "right: " ++ ro ++
              indentOf level ++ "\x7d"
             if 1 ≤ level then body ++ "\n" else body)) ∧
    dimension_label 0 = "x" ∧ dimension_label 1 = "y" ∧ dimension_label 2 = "z" ∧
    dimension_label 3 = "w" ∧ ∀ d, 4 ≤ d → dimension_label d = "x" ++ Nat.repr d := by
  refine ⟨?_, rfl, rfl, rfl, rfl, ?_⟩
  · intro s dm mn mx pts left right v d level lo ro hs hl hr
    simp only [fmt_recursively_text, if_neg hs, hl, hr]
  · intro d hd
    obtain ⟨e, rfl⟩ : ∃ e, d = e + 4 := ⟨d - 4, by omega⟩
    rfl

/-- C8 witness: a concrete internal node splitting on axis 5 renders its
split line with the label x5, and dimension_label 5 is x5. -/
theorem text_split_axis_label_witness :
    fmt_recursively_text
      (.node 1 7 (some 1) (some 5) [] [] none
        (some (.node 0 7 none none [] [] none none none))
        (some (.node 0 7 none none [] [] none none none))) 0 =
      .ok "KdTree \x7b\n    split_value: 1 on x5\n    left: KdTree \x7b\x7d    right: KdTree \x7b\x7d\x7d" ∧
    dimension_label 5 = "x5" := by
  constructor
  · exact (text_split_axis_label.1 1 7 [] [] none
      (.node 0 7 none none [] [] none none none) (.node 0 7 none none [] [] none none none)
      1 5 0 "KdTree \x7b\x7d" "KdTree \x7b\x7d" (by decide) rfl rfl).trans (by decide)
  · exact text_split_axis_label.2.2.2.2.2 5 (by omega)

/-- C5 counterexample: at a concrete internal-node call whose own flag is
false (as for every root call), the flag handed to the right child is
false as well, not the negation (true) the claim demands. -/
theorem tikz_right_flag_not_negation :
    (tikz_child_modes ⟨0, 1, 0, 1⟩ false 0 0).map (fun m => m.2.2) ≠ .ok (!false) := by
  decide

/-- C5 amended: the renderer hands flag true to the left (first) child and
flag false to the right (second) child of every internal node, whatever the
node flag is; the right child flag is therefore the negation of the left
child flag, not of the node flag. -/
theorem tikz_child_flags :
    ∀ b fl v d lb lf rb rf,
      tikz_child_modes b fl v d = .ok ((lb, lf), (rb, rf)) →
      lf = true ∧ rf = false ∧ rf = !lf := by
  intro b fl v d lb lf rb rf h
  match d with
  | 0 =>
    simp only [tikz_child_modes, Except.ok.injEq, Prod.mk.injEq] at h
    obtain ⟨⟨-, h1⟩, -, h2⟩ := h
    subst h1
    subst h2
    exact ⟨rfl, rfl, rfl⟩
  | 1 =>
    simp only [tikz_child_modes, Except.ok.injEq, Prod.mk.injEq] at h
    obtain ⟨⟨-, h1⟩, -, h2⟩ := h
    subst h1
    subst h2
    exact ⟨rfl, rfl, rfl⟩
  | (n + 2) => cases h

/-- C5 amended witness: the concrete child modes of an axis-0 split carry
flag true on the left and flag false on the right. -/
theorem tikz_child_flags_witness :
    tikz_child_modes ⟨0, 1, 0, 1⟩ false 0 0 =
      .ok ((⟨0, 0, 0, 1⟩, true), (⟨0, 1, 0, 1⟩, false)) ∧
    (true = true ∧ false = false ∧ false = !true) :=
  ⟨rfl, tikz_child_flags ⟨0, 1, 0, 1⟩ false 0 0 ⟨0, 0, 0, 1⟩ true ⟨0, 1, 0, 1⟩ false rfl⟩

/-- C6 counterexample: the empty subtree rendered at depth 1 (a non-root
call) yields the bare empty-braces marker; its output is not the marker
followed by the trailing newline the claim requires after every non-root
subtree including the empty one. -/
theorem text_empty_no_trailing_newline :
    fmt_recursively_text (.node 0 2 none none [] [] none none none) 1 =
      .ok "KdTree \x7b\x7d" ∧
    ("KdTree \x7b\x7d" : String) ≠ "KdTree \x7b\x7d" ++ "\n" := ⟨rfl, by decide⟩

/-- C6 amended: a size-zero subtree returns the empty-braces marker early,
with no trailing newline at any depth; every other subtree renders its
match-block body (fmt_text_core) and appends one trailing newline exactly
when the call is not the root call (depth at least 1). -/
theorem text_trailing_newline (t : KdTree) (level : Nat) :
    fmt_recursively_text t level =
      if t.size = 0 then .ok "KdTree \x7b\x7d"
      else (fmt_text_core t level).map (fun s => if 1 ≤ level then s ++ "\n" else s) := by
  match t with
  | .node s dm sv sd mn mx pts (some l) (some r) =>
    by_cases hs : s = 0
    · subst hs
      rfl
    · simp only [fmt_recursively_text, fmt_text_core, KdTree.size, if_neg hs]
      cases sv <;> cases sd <;> try rfl
      cases fmt_recursively_text l (level + 1) <;> cases fmt_recursively_text r (level + 1) <;> rfl
  | .node s dm sv sd mn mx pts (some l) none =>
    by_cases hs : s = 0
    · subst hs; rfl
    · simp only [fmt_recursively_text, fmt_text_core, KdTree.size, if_neg hs]
      cases pts <;> rfl
  | .node s dm sv sd mn mx pts none rgt =>
    by_cases hs : s = 0
    · subst hs
      cases rgt <;> rfl
    · cases rgt <;>
        simp only [fmt_recursively_text, fmt_text_core, KdTree.size, if_neg hs] <;>
        cases pts <;> rfl

/-- C2: a non-empty internal node in diagram mode with split axis 0 emits
exactly one vertical segment at x = split_value spanning min_y to max_y of
its rectangle, followed by the left child rendering under max_x narrowed to
split_value with flag true, then the right child rendering under min_x
narrowed to split_value with flag false; axis 1 is symmetric with the roles
of x and y swapped (horizontal segment, max_y and min_y narrowed). -/
theorem tikz_internal_emission :
    ∀ s dm mn mx pts left right bounds flip v lo ro fs sn,
      s ≠ 0 →
      (pos_nodes v 0 flip = .ok (fs, sn) →
        fmt_recursively_tikz left { bounds with max_x := v } true = .ok lo →
        fmt_recursively_tikz right { bounds with min_x := v } false = .ok ro →
        fmt_recursively_tikz
          (.node s dm (some v) (some 0) mn mx pts (some left) (some right)) bounds flip =
          .ok (.line v bounds.min_y v bounds.max_y fs sn :: (lo ++ ro))) ∧
      (pos_nodes v 1 flip = .ok (fs, sn) →
        fmt_recursively_tikz left { bounds with max_y := v } true = .ok lo →
        fmt_recursively_tikz right { bounds with min_y := v } false = .ok ro →
        fmt_recursively_tikz
          (.node s dm (some v) (some 1) mn mx pts (some left) (some right)) bounds flip =
          .ok (.line bounds.min_x v bounds.max_x v fs sn :: (lo ++ ro))) := by
  intro s dm mn mx pts left right bounds flip v lo ro fs sn hs
  constructor
  · intro hp hl hr
    simp only [fmt_recursively_tikz, if_neg hs, hp, split_line, tikz_child_modes, hl, hr]
  · intro hp hl hr
    simp only [fmt_recursively_tikz, if_neg hs, hp, split_line, tikz_child_modes, hl, hr]

/-- C2 witness: the scenario of the spec, an internal node splitting at
x = 0 under bounds x in -10..10 and y in -5..5, emits the vertical segment
from (0, -5) to (0, 5) and nothing else when both children are empty. -/
theorem tikz_internal_emission_witness :
    fmt_recursively_tikz
      (.node 2 2 (some 0) (some 0) [] [] none
        (some (.node 0 2 none none [] [] none none none))
        (some (.node 0 2 none none [] [] none none none))) ⟨-10, 10, -5, 5⟩ false =
      .ok [.line 0 (-5) 0 5 ""
        (" node[anchor=south, align=flush center] \x7b0 \\\\[-4pt] \x7b\\tiny L\x7d x \x7b\\tiny R\x7d\x7d")] := by
  exact ((tikz_internal_emission 2 2 [] [] none
    (.node 0 2 none none [] [] none none none) (.node 0 2 none none [] [] none none none)
    ⟨-10, 10, -5, 5⟩ false 0 [] [] ""
    (" node[anchor=south, align=flush center] \x7b0 \\\\[-4pt] \x7b\\tiny L\x7d x \x7b\\tiny R\x7d\x7d")
    (by decide)).1 rfl rfl rfl).trans (by decide)

/-- C7: a non-empty node without both children present is rendered by the
leaf arm of the text renderer: a block header, a points section with
exactly one line per stored point, the coordinate values of each point in
parentheses separated by a comma and a tab, every value carrying an
explicit leading sign through the sign-forcing display, then the closing
marker; every signed value starts with a plus on nonnegative values and
with the minus of the plain display otherwise. -/
theorem text_leaf_points :
    (∀ s dm sv sd mn mx ps lft rgt level,
      (lft = none ∨ rgt = none) → s ≠ 0 →
      fmt_recursively_text (.node s dm sv sd mn mx (some ps) lft rgt) level =
        .ok (let body :=
              "KdTree \x7b\n" ++
              indentOf level ++ four_spaces ++ "points: [\n" ++
              String.join (ps.map (fun p =>
                indentOf level ++ four_spaces ++ four_spaces ++ "(" ++
                  String.intercalate ",\t" (p.map dispQSigned) ++ ")\n")) ++
              indentOf level ++ four_spaces ++ "]\n" ++
              indentOf level ++ "\x7d"
             if 1 ≤ level then body ++ "\n" else body)) ∧
    ∀ q : ℚ, ∃ rest, dispQSigned q = (if q < 0 then "-" else "+") ++ rest := by
  constructor
  · intro s dm sv sd mn mx ps lft rgt level hchild hs
    match lft, rgt, hchild with
    | none, none, _ => simp only [fmt_recursively_text, if_neg hs]
    | none, some r, _ => simp only [fmt_recursively_text, if_neg hs]
    | some l, none, _ => simp only [fmt_recursively_text, if_neg hs]
    | some l, some r, h => cases h <;> simp_all
  · intro q
    by_cases hq : q < 0
    · refine ⟨dispQmag q.num.natAbs q.den, ?_⟩
      have hn : q.num < 0 := by
        exact_mod_cast Rat.num_neg.mpr hq
      simp [dispQSigned, dispQ, if_pos hq, if_pos hn]
    · exact ⟨dispQ q, by simp [dispQSigned, if_neg hq]⟩

/-- C7 witness: the leaf of the spec scenario, holding the points (1, 2)
and (-3.5, 4.25), renders exactly the two point lines (+1, tab, +2) and
(-3.5, tab, +4.25), and the signed display of 1 starts with a plus. -/
theorem text_leaf_points_witness :
    fmt_recursively_text
      (.node 2 2 none none [] [] (some [[1, 2], [mkRat (-7) 2, mkRat 17 4]]) none none) 0 =
      .ok "KdTree \x7b\n    points: [\n        (+1,\t+2)\n        (-3.5,\t+4.25)\n    ]\n\x7d" ∧
    ∃ rest, dispQSigned 1 = (if (1 : ℚ) < 0 then "-" else "+") ++ rest := by
  constructor
  · exact (text_leaf_points.1 2 2 none none [] [] [[1, 2], [mkRat (-7) 2, mkRat 17 4]]
      none none 0 (Or.inl rfl) (by decide)).trans (by decide)
  · exact text_leaf_points.2 1

/-- C9: for a tree whose global bounds destructure into two coordinates per
axis, the diagram document is the rendered recursive instruction sequence
wrapped in the preamble and the postamble; the preamble is one fixed text
around the four global bounds, declaring the two bounding axis arrows from
(min_x, 0) to (max_x, 0) and from (0, min_y) to (0, max_y), and the
postamble is one fixed text. -/
theorem tikz_document_wrapping :
    ∀ t mnx mny mxx mxy instrs,
      t.min_bounds = [mnx, mny] → t.max_bounds = [mxx, mxy] →
      fmt_recursively_tikz t ⟨mnx, mxx, mny, mxy⟩ false = .ok instrs →
      display_tikz_fmt t =
        .ok (tikz_preamble mnx mxx mny mxy ++ render_tikz_instrs instrs ++ tikz_postamble) ∧
      tikz_preamble mnx mxx mny mxy =
        "\\documentclass[border=2cm]\x7bstandalone\x7d\n\\usepackage\x7bmathtools\x7d\n\\usepackage\x7btikz\x7d\n\\usetikzlibrary\x7barrows.meta\x7d\n\n\\begin\x7bdocument\x7d\n\\begin\x7btikzpicture\x7d\n\n\\draw[->, black!40] (" ++
          dispQ mnx ++ (", 0) -- (" ++ (dispQ mxx ++ (", 0);\n\\draw[->, black!40] (0, " ++
          (dispQ mny ++ (") -- (0, " ++ (dispQ mxy ++ ");\n\n")))))) ∧
      tikz_postamble = "\n\\end\x7btikzpicture\x7d\n\\end\x7bdocument\x7d\n" := by
  intro t mnx mny mxx mxy instrs hmn hmx hbody
  refine ⟨?_, ?_, rfl⟩
  · unfold display_tikz_fmt
    rw [hmn, hmx]
    simp only [hbody]
  · simp [tikz_preamble, String.append_assoc]

/-- C9 witness: the concrete document of a single-leaf tree with global
bounds [-1, -2] to [3, 4] and one stored point (1, 2). -/
theorem tikz_document_wrapping_witness :
    display_tikz_fmt (.node 1 2 none none [-1, -2] [3, 4] (some [[1, 2]]) none none) =
      .ok (tikz_preamble (-1) 3 (-2) 4 ++
           render_tikz_instrs [.pts [(1, 2)]] ++ tikz_postamble) :=
  (tikz_document_wrapping (.node 1 2 none none [-1, -2] [3, 4] (some [[1, 2]]) none none)
    (-1) (-2) 3 4 [.pts [(1, 2)]] rfl rfl rfl).1

/-- C4: the label-orientation flag does not influence the drawn geometry:
for every tree and every rectangle, the TikZ renderings under any two flag
values agree after erasing the label strings of every draw command; the
same split-segment endpoints and the same point markers are produced, in
the same order, and errors agree as well. -/
theorem tikz_flag_geometry_invariant (t : KdTree) (b : Bounds) (f1 f2 : Bool) :
    (fmt_recursively_tikz t b f1).map (List.map geometry) =
    (fmt_recursively_tikz t b f2).map (List.map geometry) := by
  match t with
  | .node s dm sv sd mn mx pts (some l) (some r) =>
    by_cases hs : s = 0
    · subst hs
      rfl
    · simp only [fmt_recursively_tikz, if_neg hs]
      cases sv with
      | none => rfl
      | some v =>
        cases sd with
        | none => rfl
        | some d =>
          match d with
          | 0 =>
            cases f1 <;> cases f2 <;>
              simp only [pos_nodes, split_line, tikz_child_modes] <;>
              cases fmt_recursively_tikz l { b with max_x := v } true <;>
              cases fmt_recursively_tikz r { b with min_x := v } false <;>
              rfl
          | 1 =>
            cases f1 <;> cases f2 <;>
              simp only [pos_nodes, split_line, tikz_child_modes] <;>
              cases fmt_recursively_tikz l { b with max_y := v } true <;>
              cases fmt_recursively_tikz r { b with min_y := v } false <;>
              rfl
          | (n + 2) => rfl
  | .node s dm sv sd mn mx pts (some l) none => rfl
  | .node s dm sv sd mn mx pts none rgt => rfl

/-- C3: the child rectangles of tikz_child_modes differ from the parent
rectangle in exactly the one bound on the split axis, which is set to the
split value; whenever the split value lies within the parent rectangle,
the union of the two child rectangles is exactly the parent rectangle and
their intersection is exactly the shared boundary segment at the split
value (no gap, no overlap beyond that line). -/
theorem tikz_child_rects (b : Bounds) (fl : Bool) (v : ℚ) :
    (∀ lb lf rb rf, tikz_child_modes b fl v 0 = .ok ((lb, lf), (rb, rf)) →
      (lb.min_x = b.min_x ∧ lb.max_x = v ∧ lb.min_y = b.min_y ∧ lb.max_y = b.max_y) ∧
      (rb.min_x = v ∧ rb.max_x = b.max_x ∧ rb.min_y = b.min_y ∧ rb.max_y = b.max_y) ∧
      (b.min_x ≤ v → v ≤ b.max_x →
        lb.rect ∪ rb.rect = b.rect ∧
        lb.rect ∩ rb.rect =
          setOf (fun p : ℚ × ℚ => p.1 = v ∧ b.min_y ≤ p.2 ∧ p.2 ≤ b.max_y))) ∧
    (∀ lb lf rb rf, tikz_child_modes b fl v 1 = .ok ((lb, lf), (rb, rf)) →
      (lb.min_x = b.min_x ∧ lb.max_x = b.max_x ∧ lb.min_y = b.min_y ∧ lb.max_y = v) ∧
      (rb.min_x = b.min_x ∧ rb.max_x = b.max_x ∧ rb.min_y = v ∧ rb.max_y = b.max_y) ∧
      (b.min_y ≤ v → v ≤ b.max_y →
        lb.rect ∪ rb.rect = b.rect ∧
        lb.rect ∩ rb.rect =
          setOf (fun p : ℚ × ℚ => b.min_x ≤ p.1 ∧ p.1 ≤ b.max_x ∧ p.2 = v))) := by
  constructor
  · intro lb lf rb rf h
    simp only [tikz_child_modes, Except.ok.injEq, Prod.mk.injEq] at h
    obtain ⟨⟨hlb, -⟩, hrb, -⟩ := h
    subst hlb
    subst hrb
    refine ⟨⟨rfl, rfl, rfl, rfl⟩, ⟨rfl, rfl, rfl, rfl⟩, fun hv1 hv2 => ⟨?_, ?_⟩⟩
    · ext p
      simp only [Bounds.rect, Set.mem_union, Set.mem_setOf_eq]
      constructor
      · rintro (⟨h1, h2, h3, h4⟩ | ⟨h1, h2, h3, h4⟩)
        · exact ⟨h1, le_trans h2 hv2, h3, h4⟩
        · exact ⟨le_trans hv1 h1, h2, h3, h4⟩
      · rintro ⟨h1, h2, h3, h4⟩
        rcases le_total p.1 v with hc | hc
        · exact Or.inl ⟨h1, hc, h3, h4⟩
        · exact Or.inr ⟨hc, h2, h3, h4⟩
    · ext p
      simp only [Bounds.rect, Set.mem_inter_iff, Set.mem_setOf_eq]
      constructor
      · rintro ⟨⟨-, h2, h3, h4⟩, h5, -, -⟩
        exact ⟨le_antisymm h2 h5, h3, h4⟩
      · rintro ⟨h1, h3, h4⟩
        subst h1
        exact ⟨⟨hv1, le_refl _, h3, h4⟩, le_refl _, hv2, h3, h4⟩
  · intro lb lf rb rf h
    simp only [tikz_child_modes, Except.ok.injEq, Prod.mk.injEq] at h
    obtain ⟨⟨hlb, -⟩, hrb, -⟩ := h
    subst hlb
    subst hrb
    refine ⟨⟨rfl, rfl, rfl, rfl⟩, ⟨rfl, rfl, rfl, rfl⟩, fun hv1 hv2 => ⟨?_, ?_⟩⟩
    · ext p
      simp only [Bounds.rect, Set.mem_union, Set.mem_setOf_eq]
      constructor
      · rintro (⟨h1, h2, h3, h4⟩ | ⟨h1, h2, h3, h4⟩)
        · exact ⟨h1, h2, h3, le_trans h4 hv2⟩
        · exact ⟨h1, h2, le_trans hv1 h3, h4⟩
      · rintro ⟨h1, h2, h3, h4⟩
        rcases le_total p.2 v with hc | hc
        · exact Or.inl ⟨h1, h2, h3, hc⟩
        · exact Or.inr ⟨h1, h2, hc, h4⟩
    · ext p
      simp only [Bounds.rect, Set.mem_inter_iff, Set.mem_setOf_eq]
      constructor
      · rintro ⟨⟨h1, h2, -, h4⟩, -, -, h5, -⟩
        exact ⟨h1, h2, le_antisymm h4 h5⟩
      · rintro ⟨h1, h2, h3⟩
        subst h3
        exact ⟨⟨h1, h2, hv1, le_refl _⟩, h1, h2, le_refl _, hv2⟩

/-- C3 witness: at the spec scenario (split at x = 0, bounds x in -10..10
and y in -5..5), the child rectangles are x in -10..0 and x in 0..10 with
the y range untouched, and their union is the parent rectangle. -/
theorem tikz_child_rects_witness :
    tikz_child_modes ⟨-10, 10, -5, 5⟩ false 0 0 =
      .ok ((⟨-10, 0, -5, 5⟩, true), (⟨0, 10, -5, 5⟩, false)) ∧
    Bounds.rect ⟨-10, 0, -5, 5⟩ ∪ Bounds.rect ⟨0, 10, -5, 5⟩ =
      Bounds.rect ⟨-10, 10, -5, 5⟩ := by
  refine ⟨rfl, ?_⟩
  have h := (tikz_child_rects ⟨-10, 10, -5, 5⟩ false 0).1
    ⟨-10, 0, -5, 5⟩ true ⟨0, 10, -5, 5⟩ false rfl
  exact (h.2.2 (by norm_num) (by norm_num)).1

/-- The TikZ recursion never consults the dimensionality field: overwriting
it at every node leaves the rendering unchanged. -/
theorem fmt_tikz_setDims (d : Nat) : ∀ (t : KdTree) (b : Bounds) (fl : Bool),
    fmt_recursively_tikz (setDims d t) b fl = fmt_recursively_tikz t b fl
  | .node s dm sv sd mn mx pts (some l) (some r), b, fl => by
    simp only [setDims, fmt_recursively_tikz, fmt_tikz_setDims d l, fmt_tikz_setDims d r]
  | .node s dm sv sd mn mx pts (some l) none, b, fl => rfl
  | .node s dm sv sd mn mx pts none (some r), b, fl => rfl
  | .node s dm sv sd mn mx pts none none, b, fl => rfl

/-- C1: requesting the diagram rendering of a tree whose dimensionality is
not 2 fails with the UnsupportedDimensionality error and produces no
output at all; the dimensionality check sits only at the entry point: the
recursive rendering never consults the dimensionality of any node, so
overwriting it everywhere leaves the diagram body unchanged. -/
theorem diagram_dimensionality_gate (t : KdTree) (h : t.dimensions ≠ 2) :
    render_diagram t = .error .UnsupportedDimensionality ∧
    ∀ d b fl, fmt_recursively_tikz (setDims d t) b fl = fmt_recursively_tikz t b fl := by
  refine ⟨?_, fun d b fl => fmt_tikz_setDims d t b fl⟩
  unfold render_diagram display_tikz
  rw [if_pos h]

/-- C1 witness: a concrete 3-dimensional tree is rejected with
UnsupportedDimensionality. -/
theorem diagram_dimensionality_gate_witness :
    render_diagram (.node 1 3 none none [0, 0] [1, 1] (some [[0, 0]]) none none) =
      .error .UnsupportedDimensionality :=
  (diagram_dimensionality_gate
    (.node 1 3 none none [0, 0] [1, 1] (some [[0, 0]]) none none) (by decide)).1

/-- Under the shape invariant, the text renderer never errors with an
unwrap on None. -/
theorem wf_text_no_unwrap : ∀ (t : KdTree), wellFormed t = true →
    ∀ level, fmt_recursively_text t level ≠ .error .unwrapNone
  | .node s dm sv sd mn mx pts (some l) (some r), hwf, level => by
    have hwf' : (sv.isSome && sd.isSome && wellFormed l && wellFormed r) = true := hwf
    simp only [Bool.and_eq_true] at hwf'
    obtain ⟨⟨⟨hsv, hsd⟩, hl⟩, hr⟩ := hwf'
    obtain ⟨v, hv⟩ := Option.isSome_iff_exists.mp hsv
    obtain ⟨dd, hd⟩ := Option.isSome_iff_exists.mp hsd
    subst hv
    subst hd
    by_cases hs : s = 0
    · subst hs
      intro hcon
      exact Except.noConfusion hcon
    · simp only [fmt_recursively_text, if_neg hs]
      cases hres1 : fmt_recursively_text l (level + 1) with
      | error e =>
        have := wf_text_no_unwrap l hl (level + 1)
        rw [hres1] at this
        intro hcon
        exact this (by rw [← hcon])
      | ok lo =>
        cases hres2 : fmt_recursively_text r (level + 1) with
        | error e =>
          have := wf_text_no_unwrap r hr (level + 1)
          rw [hres2] at this
          intro hcon
          exact this (by rw [← hcon])
        | ok ro => intro hcon; exact Except.noConfusion hcon
  | .node s dm sv sd mn mx pts (some l) none, hwf, level => by
    have hwf' : pts.isSome = true := hwf
    obtain ⟨ps, hps⟩ := Option.isSome_iff_exists.mp hwf'
    subst hps
    by_cases hs : s = 0
    · subst hs
      exact fun hcon => Except.noConfusion hcon
    · simp only [fmt_recursively_text, if_neg hs]
      exact fun hcon => Except.noConfusion hcon
  | .node s dm sv sd mn mx pts none rgt, hwf, level => by
    have hwf' : pts.isSome = true := by
      cases rgt <;> exact hwf
    obtain ⟨ps, hps⟩ := Option.isSome_iff_exists.mp hwf'
    subst hps
    by_cases hs : s = 0
    · subst hs
      cases rgt <;> exact fun hcon => Except.noConfusion hcon
    · cases rgt <;> simp only [fmt_recursively_text, if_neg hs] <;>
        exact fun hcon => Except.noConfusion hcon

/-- The per-point coordinate extraction of the TikZ leaf arm can only fail
with the indexing error. -/
theorem mapM_coords_error : ∀ (ps : List (List ℚ)) (e : Panic),
    ps.mapM (fun p =>
      match p[0]?, p[1]? with
      | some x, some y => Except.ok (x, y)
      | _, _ => Except.error Panic.indexOutOfBounds) = .error e →
    e = Panic.indexOutOfBounds := by
  intro ps
  induction ps with
  | nil =>
    intro e h
    exact absurd h (fun h => Except.noConfusion h)
  | cons p ps ih =>
    intro e
    simp only [List.mapM_cons]
    cases h0 : p[0]? with
    | none =>
      intro h
      have h' : (Except.error Panic.indexOutOfBounds : Except Panic (List (ℚ × ℚ))) =
          .error e := h
      exact (Except.error.inj h').symm
    | some x =>
      cases h1 : p[1]? with
      | none =>
        intro h
        have h' : (Except.error Panic.indexOutOfBounds : Except Panic (List (ℚ × ℚ))) =
            .error e := h
        exact (Except.error.inj h').symm
      | some y =>
        cases hps : ps.mapM (fun p =>
          match p[0]?, p[1]? with
          | some x, some y => Except.ok (x, y)
          | _, _ => Except.error Panic.indexOutOfBounds) with
        | error e2 =>
          intro h
          have h' : (Except.error e2 : Except Panic (List (ℚ × ℚ))) = .error e := h
          rw [← Except.error.inj h']
          exact ih e2 hps
        | ok cs =>
          intro h
          have h' : (Except.ok ((x, y) :: cs) : Except Panic (List (ℚ × ℚ))) = .error e := h
          exact absurd h' (fun hh => Except.noConfusion hh)

/-- Under the shape invariant, the TikZ renderer never errors with an
unwrap on None: its remaining failure modes (the unreachable axis arm and
the coordinate indexing of the leaf loop) are different errors. -/
theorem wf_tikz_no_unwrap : ∀ (t : KdTree), wellFormed t = true →
    ∀ (b : Bounds) (fl : Bool), fmt_recursively_tikz t b fl ≠ .error .unwrapNone
  | .node s dm sv sd mn mx pts (some l) (some r), hwf, b, fl => by
    have hwf' : (sv.isSome && sd.isSome && wellFormed l && wellFormed r) = true := hwf
    simp only [Bool.and_eq_true] at hwf'
    obtain ⟨⟨⟨hsv, hsd⟩, hl⟩, hr⟩ := hwf'
    obtain ⟨v, hv⟩ := Option.isSome_iff_exists.mp hsv
    obtain ⟨dd, hd⟩ := Option.isSome_iff_exists.mp hsd
    subst hv
    subst hd
    by_cases hs : s = 0
    · subst hs
      exact fun hcon => Except.noConfusion hcon
    · simp only [fmt_recursively_tikz, if_neg hs]
      match dd with
      | 0 =>
        obtain ⟨fs, sn, hp⟩ : ∃ fs sn, pos_nodes v 0 fl = .ok (fs, sn) := by
          cases fl
          · exact ⟨_, _, rfl⟩
          · exact ⟨_, _, rfl⟩
        simp only [hp, split_line, tikz_child_modes]
        cases hres1 : fmt_recursively_tikz l { b with max_x := v } true with
        | error e =>
          have hne := wf_tikz_no_unwrap l hl { b with max_x := v } true
          rw [hres1] at hne
          intro hcon
          exact hne (by rw [← hcon])
        | ok lo =>
          cases hres2 : fmt_recursively_tikz r { b with min_x := v } false with
          | error e =>
            have hne := wf_tikz_no_unwrap r hr { b with min_x := v } false
            rw [hres2] at hne
            intro hcon
            exact hne (by rw [← hcon])
          | ok ro => exact fun hcon => Except.noConfusion hcon
      | 1 =>
        obtain ⟨fs, sn, hp⟩ : ∃ fs sn, pos_nodes v 1 fl = .ok (fs, sn) := by
          cases fl
          · exact ⟨_, _, rfl⟩
          · exact ⟨_, _, rfl⟩
        simp only [hp, split_line, tikz_child_modes]
        cases hres1 : fmt_recursively_tikz l { b with max_y := v } true with
        | error e =>
          have hne := wf_tikz_no_unwrap l hl { b with max_y := v } true
          rw [hres1] at hne
          intro hcon
          exact hne (by rw [← hcon])
        | ok lo =>
          cases hres2 : fmt_recursively_tikz r { b with min_y := v } false with
          | error e =>
            have hne := wf_tikz_no_unwrap r hr { b with min_y := v } false
            rw [hres2] at hne
            intro hcon
            exact hne (by rw [← hcon])
          | ok ro => exact fun hcon => Except.noConfusion hcon
      | (n + 2) =>
        intro hcon
        have h' : (Except.error Panic.unreachableReached :
            Except Panic (List TikzInstr)) = .error .unwrapNone := hcon
        exact Panic.noConfusion (Except.error.inj h')
  | .node s dm sv sd mn mx pts (some l) none, hwf, b, fl => by
    have hwf' : pts.isSome = true := hwf
    obtain ⟨ps, hps⟩ := Option.isSome_iff_exists.mp hwf'
    subst hps
    by_cases hs : s = 0
    · subst hs
      exact fun hcon => Except.noConfusion hcon
    · simp only [fmt_recursively_tikz, if_neg hs]
      cases hres : ps.mapM (fun p =>
        match p[0]?, p[1]? with
        | some x, some y => Except.ok (x, y)
        | _, _ => Except.error Panic.indexOutOfBounds) with
      | ok coords =>
        simp only [hres]
        exact fun hcon => Except.noConfusion hcon
      | error e =>
        simp only [hres]
        intro hcon
        have he := mapM_coords_error ps e hres
        subst he
        exact Panic.noConfusion (Except.error.inj hcon)
  | .node s dm sv sd mn mx pts none rgt, hwf, b, fl => by
    have hwf' : pts.isSome = true := by
      cases rgt <;> exact hwf
    obtain ⟨ps, hps⟩ := Option.isSome_iff_exists.mp hwf'
    subst hps
    by_cases hs : s = 0
    · subst hs
      cases rgt <;> exact fun hcon => Except.noConfusion hcon
    · cases rgt with
      | none =>
        simp only [fmt_recursively_tikz, if_neg hs]
        cases hres : ps.mapM (fun p =>
          match p[0]?, p[1]? with
          | some x, some y => Except.ok (x, y)
          | _, _ => Except.error Panic.indexOutOfBounds) with
        | ok coords =>
          simp only [hres]
          exact fun hcon => Except.noConfusion hcon
        | error e =>
          simp only [hres]
          intro hcon
          have he := mapM_coords_error ps e hres
          subst he
          exact Panic.noConfusion (Except.error.inj hcon)
      | some r =>
        simp only [fmt_recursively_tikz, if_neg hs]
        cases hres : ps.mapM (fun p =>
          match p[0]?, p[1]? with
          | some x, some y => Except.ok (x, y)
          | _, _ => Except.error Panic.indexOutOfBounds) with
        | ok coords =>
          simp only [hres]
          exact fun hcon => Except.noConfusion hcon
        | error e =>
          simp only [hres]
          intro hcon
          have he := mapM_coords_error ps e hres
          subst he
          exact Panic.noConfusion (Except.error.inj hcon)

/-- C10: a non-empty tree satisfying the internal-iff-both-children shape
invariant (both children present together with split value and split axis,
or otherwise a present point collection, at every node) renders in both
text and diagram mode without ever reaching a panicking unwrap; and any
non-empty node that is not matched as having both children present is
dispatched to the leaf arm, which unwraps the point collection, so such a
node with no point collection (in particular one with exactly one child)
panics with the unwrap error rather than render, in both modes. -/
theorem no_unwrap_panic (t : KdTree) :
    (wellFormed t = true → t.size ≠ 0 →
      (∀ level, fmt_recursively_text t level ≠ .error .unwrapNone) ∧
      (∀ b fl, fmt_recursively_tikz t b fl ≠ .error .unwrapNone)) ∧
    (t.size ≠ 0 → t.points = none → (t.left = none ∨ t.right = none) →
      (∀ level, fmt_recursively_text t level = .error .unwrapNone) ∧
      (∀ b fl, fmt_recursively_tikz t b fl = .error .unwrapNone)) := by
  constructor
  · intro hwf _
    exact ⟨wf_text_no_unwrap t hwf, wf_tikz_no_unwrap t hwf⟩
  · intro hs hpts hchild
    match t, hs, hpts, hchild with
    | .node s dm sv sd mn mx pts lft rgt, hs, hpts, hchild =>
      have hpts' : pts = none := hpts
      subst hpts'
      have hs' : s ≠ 0 := hs
      constructor
      · intro level
        match lft, rgt, hchild with
        | none, none, _ => simp only [fmt_recursively_text, if_neg hs']
        | none, some r, _ => simp only [fmt_recursively_text, if_neg hs']
        | some l, none, _ => simp only [fmt_recursively_text, if_neg hs']
        | some l, some r, hchild =>
          rcases hchild with hcon | hcon <;> exact absurd hcon (fun h => Option.noConfusion h)
      · intro b fl
        match lft, rgt, hchild with
        | none, none, _ => simp only [fmt_recursively_tikz, if_neg hs']
        | none, some r, _ => simp only [fmt_recursively_tikz, if_neg hs']
        | some l, none, _ => simp only [fmt_recursively_tikz, if_neg hs']
        | some l, some r, hchild =>
          rcases hchild with hcon | hcon <;> exact absurd hcon (fun h => Option.noConfusion h)

/-- C10 witness: a concrete well-formed single-leaf tree renders in both
modes without the unwrap error, while a concrete node with exactly one
child and no point collection hits the unwrap error in both modes. -/
theorem no_unwrap_panic_witness :
    (fmt_recursively_text (.node 1 2 none none [0, 0] [1, 1] (some [[0, 0]]) none none) 0 ≠
      .error .unwrapNone ∧
     fmt_recursively_tikz (.node 1 2 none none [0, 0] [1, 1] (some [[0, 0]]) none none)
       ⟨0, 1, 0, 1⟩ false ≠ .error .unwrapNone) ∧
    (fmt_recursively_text
      (.node 1 2 none none [0, 0] [1, 1] none
        (some (.node 1 2 none none [0, 0] [1, 1] (some [[0, 0]]) none none)) none) 0 =
      .error .unwrapNone ∧
     fmt_recursively_tikz
      (.node 1 2 none none [0, 0] [1, 1] none
        (some (.node 1 2 none none [0, 0] [1, 1] (some [[0, 0]]) none none)) none)
       ⟨0, 1, 0, 1⟩ false = .error .unwrapNone) := by
  constructor
  · have h := (no_unwrap_panic
      (.node 1 2 none none [0, 0] [1, 1] (some [[0, 0]]) none none)).1 (by decide) (by decide)
    exact ⟨h.1 0, h.2 ⟨0, 1, 0, 1⟩ false⟩
  · have h := (no_unwrap_panic
      (.node 1 2 none none [0, 0] [1, 1] none
        (some (.node 1 2 none none [0, 0] [1, 1] (some [[0, 0]]) none none)) none)).2
      (by decide) rfl (Or.inr rfl)
    exact ⟨h.1 0, h.2 ⟨0, 1, 0, 1⟩ false⟩

end KdTreeRs
